import Mathlib

/-!
Shallow embedding of the `flow_info` package (files `flow_info/flow_info.py`
and `flow_info/flows_cache.py`).  Python dicts are modelled as
insertion-ordered association lists, Python exceptions as `Except String`,
`None`-able values as `Option`.  Machine floats never matter here: all
timestamps in scope are whole-second ISO strings, so durations are exact
integers.
-/

namespace FlowInfoModel

/-- Python dict lookup `d.get(k)`. -/
def dictLookup {κ α : Type} [DecidableEq κ] (d : List (κ × α)) (k : κ) : Option α :=
  match d with
  | [] => none
  | p :: rest => if p.1 = k then some p.2 else dictLookup rest k

/-- Python `k in d`. -/
def dictHas {κ α : Type} [DecidableEq κ] (d : List (κ × α)) (k : κ) : Bool :=
  match d with
  | [] => false
  | p :: rest => p.1 = k || dictHas rest k

/-- Python dict assignment `d[k] = v`: overwrite the existing binding in
place (dict keys are unique, so the first match is the binding), otherwise
append — insertion order preserved, as in CPython dicts. -/
def dictSet {κ α : Type} [DecidableEq κ] : List (κ × α) → κ → α → List (κ × α)
  | [], k, v => [(k, v)]
  | p :: rest, k, v => if p.1 = k then (k, v) :: rest else p :: dictSet rest k v

/-- Python `d.update(kvs)`: assignments applied in the order of `kvs`. -/
def dictUpdate {κ α : Type} [DecidableEq κ] (d : List (κ × α)) (kvs : List (κ × α)) :
    List (κ × α) :=
  kvs.foldl (fun acc p => dictSet acc p.1 p.2) d

/-- Whether `needle` occurs at the very front of `hay`. -/
def leadsWith : List Char → List Char → Bool
  | [], _ => true
  | _ :: _, [] => false
  | a :: as, b :: bs => a = b && leadsWith as bs

/-- Whether `needle` occurs anywhere in `hay`. -/
def hasSub : List Char → List Char → Bool
  | [], needle => needle.isEmpty
  | h :: rest, needle => leadsWith needle (h :: rest) || hasSub rest needle

/-- Python `needle in haystack` on strings (substring containment). -/
def strContains (haystack needle : String) : Bool :=
  hasSub haystack.data needle.data

/-- Values stored in a metrics row: ISO timestamp strings and numeric
counters/durations (whole seconds, exact). -/
inductive Val : Type
  | str (s : String)
  | num (n : Int)
deriving DecidableEq, Repr

/-- A metrics row (`flow_res` in `_extract_times`): an insertion-ordered dict. -/
abbrev Row := List (String × Val)

/-- Run record as listed by the runs snapshot (`flow_run` in the source);
the data model guarantees these fields on every listed run. -/
structure Run where
  run_id : String
  flow_id : String
  status : String
  start_time : String
  completion_time : String
deriving DecidableEq, Repr

/-- `details.output[state_name]['details']` payload of a completed
transfer step; each counter may be absent (open schema). -/
structure TransferDetails where
  bytes_transferred : Option Int
  files_transferred : Option Int
  files_skipped : Option Int
deriving DecidableEq, Repr

/-- One value of the `details.output` map: `{'details': {...}}`. -/
structure OutputEntry where
  details : Option TransferDetails
deriving DecidableEq, Repr

/-- The `details` payload of a log entry; `state_name` and `output` are the
open (possibly absent) keys the source accesses. -/
structure Details where
  state_name : Option String
  output : Option (List (String × OutputEntry))
deriving DecidableEq, Repr

/-- One log entry: a status code, a timestamp, and a details payload. -/
structure LogEntry where
  code : String
  time : String
  details : Details
deriving DecidableEq, Repr

/-- A run log: `{'entries': [...]}`. -/
structure RunLog where
  entries : List LogEntry
deriving DecidableEq, Repr

/-- One state of a flow definition: `{'Type': ..., 'ActionUrl': ...}`. -/
structure FlowState where
  type : String
  action_url : String
deriving DecidableEq, Repr

/-- A flow definition: `{'id': ..., 'definition': {'States': {...}}}`. -/
structure Flow where
  id : String
  states : List (String × FlowState)
deriving DecidableEq, Repr

/-- `FlowInfo.transfer_ap_urls`. -/
def transfer_ap_urls : List String :=
  ["https://actions.automate.globus.org/transfer/transfer/",
   "https://transfer.actions.globus.org/transfer/"]

/-- `FlowInfo.compute_ap_urls`. -/
def compute_ap_urls : List String :=
  ["https://compute.actions.globus.org"]

/-- `FlowInfo.get_step_types`: linear scan of the cached flow list for the
first flow whose `id` matches; `ValueError` if none; then the `Action`-typed
states mapped to their action URLs, in definition order. -/
def get_step_types (flows : List Flow) (flow_id : String) :
    Except String (List (String × String)) :=
  match flows.find? (fun f => f.id = flow_id) with
  | none => .error ("ValueError: Could not find flow " ++ flow_id)
  | some f =>
    .ok ((f.states.filter (fun p => p.2.type = "Action")).map (fun p => (p.1, p.2.action_url)))

/-- `FlowInfo.filter_log_entries` over one entry: decide membership; the
`state_name` bracket access raises `KeyError` when the key is absent and the
name filter is non-empty (short-circuit `and` means the access only happens
when the code matched). -/
def filterEntryKeep (filter_state_names filter_codes : List String) (e : LogEntry) :
    Except String Bool :=
  if e.code ∈ filter_codes then
    if filter_state_names.isEmpty then .ok true
    else
      match e.details.state_name with
      | none => .error "KeyError: state_name"
      | some n => .ok (n ∈ filter_state_names)
  else .ok false

/-- `FlowInfo.filter_log_entries`: the list comprehension over
`run_log['entries']`; subscripting the absent-log sentinel (`None`) raises
`TypeError`. -/
def filter_log_entries (run_log : Option RunLog) (filter_state_names : List String)
    (filter_codes : List String) : Except String (List LogEntry) :=
  match run_log with
  | none => .error "TypeError: NoneType object is not subscriptable"
  | some lg => go lg.entries
where
  go : List LogEntry → Except String (List LogEntry)
    | [] => .ok []
    | e :: rest => do
      let keep ← filterEntryKeep filter_state_names filter_codes e
      let tail ← go rest
      pure (if keep then e :: tail else tail)

/-- `FlowInfo.filter_ap_states`: the set of state names of the flow whose
action URL is in the given allow-list.  The Python set is modelled as a list
used only for membership tests. -/
def filter_ap_states (flows : List Flow) (flow_id : String)
    (action_provider_urls : List String) : Except String (List String) := do
  let st ← get_step_types flows flow_id
  pure ((st.filter (fun p => p.2 ∈ action_provider_urls)).map (fun p => p.1))

/-- Loop body state of `_extract_step_times`: the `res` dict and the
`steps` list, threaded through the scan. -/
def extractStepTimesAux : List LogEntry → Row → List String →
    Except String (Row × List String)
  | [], res, steps => .ok (res, steps)
  | e :: rest, res, steps =>
    if !strContains e.code "Action" then extractStepTimesAux rest res steps
    else
      let started : Except String (Row × List String) :=
        if strContains e.code "ActionStarted" then
          match e.details.state_name with
          | none => .error "KeyError: state_name"
          | some name =>
            .ok (dictSet res (name ++ "_start") (Val.str e.time), steps ++ [name])
        else .ok (res, steps)
      match started with
      | .error msg => .error msg
      | .ok (res, steps) =>
        let completed : Except String Row :=
          if strContains e.code "ActionCompleted" then
            match e.details.state_name with
            | none => .error "KeyError: state_name"
            | some name => .ok (dictSet res (name ++ "_end") (Val.str e.time))
          else .ok res
        match completed with
        | .error msg => .error msg
        | .ok res => extractStepTimesAux rest res steps

/-- `FlowInfo._extract_step_times`: scan `flow_logs['entries']` in order; skip
entries whose code does not contain `"Action"`; record `{name}_start` on codes
containing `"ActionStarted"` (appending the name to `steps`), `{name}_end` on
codes containing `"ActionCompleted"`.  Receiving the absent-log sentinel
(`None`) raises `TypeError` at the `['entries']` subscript. -/
def extract_step_times (flow_logs : Option RunLog) :
    Except String (Row × List String) :=
  match flow_logs with
  | none => .error "TypeError: NoneType object is not subscriptable"
  | some lg => extractStepTimesAux lg.entries [] []

/-- Split a character list on a separator character (like `str.split`). -/
def splitOnChar (sep : Char) : List Char → List (List Char)
  | [] => [[]]
  | c :: rest =>
    let r := splitOnChar sep rest
    if c = sep then [] :: r
    else
      match r with
      | [] => [[c]]
      | g :: gs => (c :: g) :: gs

/-- Parse a non-empty all-digit character list as a natural number. -/
def digitsToNat? (cs : List Char) : Option Nat :=
  if cs.isEmpty then none
  else if cs.all (fun c => c.isDigit) then
    some (cs.foldl (fun acc c => acc * 10 + (c.toNat - 48)) 0)
  else none

/-- `datetime.datetime.fromisoformat` restricted to the
`YYYY-MM-DDTHH:MM:SS` shape the snapshots carry (every string this model
accepts is accepted by CPython with the same meaning); `none` is the
`ValueError` case. -/
def fromisoformat (s : String) : Option (Nat × Nat × Nat × Nat × Nat × Nat) :=
  match splitOnChar 'T' s.data with
  | [d, t] =>
    match splitOnChar '-' d, splitOnChar ':' t with
    | [ys, mos, das], [hs, mis, ses] => do
      let y ← digitsToNat? ys
      let mo ← digitsToNat? mos
      let da ← digitsToNat? das
      let h ← digitsToNat? hs
      let mi ← digitsToNat? mis
      let se ← digitsToNat? ses
      if 1 ≤ mo ∧ mo ≤ 12 ∧ 1 ≤ da ∧ da ≤ 31 ∧ h ≤ 23 ∧ mi ≤ 59 ∧ se ≤ 59 then
        some (y, mo, da, h, mi, se)
      else none
    | _, _ => none
  | _ => none

/-- Days since the civil epoch of 0000-03-01 (standard civil-calendar
formula); only differences of this value are ever used. -/
def daysFromCivil (y mo da : Nat) : Nat :=
  let y' := if mo ≤ 2 then y - 1 else y
  let era := y' / 400
  let yoe := y' % 400
  let mp := if mo > 2 then mo - 3 else mo + 9
  let doy := (153 * mp + 2) / 5 + da - 1
  let doe := yoe * 365 + yoe / 4 - yoe / 100 + doy
  era * 146097 + doe

/-- Point-in-time value in whole seconds of a parsed timestamp; subtraction
of two of these is `datetime` subtraction's `total_seconds()` (exact, since
no fractional seconds occur). -/
def toSeconds : Nat × Nat × Nat × Nat × Nat × Nat → Int
  | (y, mo, da, h, mi, se) =>
    (daysFromCivil y mo da : Int) * 86400 + h * 3600 + mi * 60 + se

/-- Per-step record built by the `extract_compute_time` loop:
`{'start': ..., 'end': ...}` with `end` possibly never set.  The dict key is
`details.get('state_name')`, which may be `None`. -/
structure ComputeStat where
  start : String
  stop : Option String
deriving DecidableEq, Repr

/-- The `extract_compute_time` entry loop: `stats[state_name] = {'start': t}`
on `ActionStarted` (exact code equality here), `stats[state_name]['end'] = t`
on `ActionCompleted` — a `KeyError` if that step never started. -/
def computeStatsLoop : List LogEntry → List (Option String × ComputeStat) →
    Except String (List (Option String × ComputeStat))
  | [], stats => .ok stats
  | e :: rest, stats => do
    let stats ←
      if e.code = "ActionStarted" then
        pure (dictSet stats e.details.state_name ⟨e.time, none⟩)
      else if e.code = "ActionCompleted" then
        match dictLookup stats e.details.state_name with
        | none => .error "KeyError: state_name not in stats"
        | some st => pure (dictSet stats e.details.state_name ⟨st.start, some e.time⟩)
      else pure stats
    computeStatsLoop rest stats

/-- Python's `f-string` rendering of the stats key (`None` renders as
`"None"`). -/
def pyStr (k : Option String) : String :=
  match k with
  | none => "None"
  | some s => s

/-- The dict comprehension of `extract_compute_time`: for each stats record,
`(fromisoformat(end) - fromisoformat(start)).total_seconds()`; a missing
`end` is a `KeyError`, an unparseable timestamp a `ValueError`. -/
def computeTimesOf : List (Option String × ComputeStat) → Except String Row
  | [] => .ok []
  | (k, st) :: rest => do
    let e ←
      match st.stop with
      | none => Except.error "KeyError: end"
      | some e => pure e
    let tEnd ←
      match fromisoformat e with
      | none => Except.error "ValueError: Invalid isoformat string"
      | some v => pure v
    let tStart ←
      match fromisoformat st.start with
      | none => Except.error "ValueError: Invalid isoformat string"
      | some v => pure v
    let tail ← computeTimesOf rest
    pure ((pyStr k ++ "_compute_time", Val.num (toSeconds tEnd - toSeconds tStart)) :: tail)

/-- Sum of the numeric values of a row (`sum(compute_times.values())`). -/
def rowNumSum (r : Row) : Int :=
  r.foldl (fun acc p => match p.2 with | Val.num n => acc + n | Val.str _ => acc) 0

/-- `FlowInfo.extract_compute_time`.  With an empty `filter_state_names` the
source executes `return compute_time` — a reference to an undefined name
(the local is spelled `compute_times`), hence a `NameError`.  Otherwise:
filter to `ActionStarted`/`ActionCompleted` entries of the given states,
pair starts with ends per state name, emit `{name}_compute_time` durations
plus their sum as `total_compute_time`. -/
def extract_compute_time (flow_logs : Option RunLog) (filter_state_names : List String) :
    Except String Row :=
  if filter_state_names.isEmpty then
    .error "NameError: name compute_time is not defined"
  else do
    let flogs ← filter_log_entries flow_logs filter_state_names
      ["ActionStarted", "ActionCompleted"]
    let stats ← computeStatsLoop flogs []
    let compute_times ← computeTimesOf stats
    pure (dictSet compute_times "total_compute_time" (Val.num (rowNumSum compute_times)))

/-- Read the current numeric value of a totals key and add to it
(`transfer_usage[k] += x`); the key is always present with a numeric value
when this is reached. -/
def dictAddNum (d : Row) (k : String) (x : Int) : Except String Row :=
  match dictLookup d k with
  | some (Val.num n) => .ok (dictSet d k (Val.num (n + x)))
  | some (Val.str _) => .error "TypeError: unsupported operand"
  | none => .error ("KeyError: " ++ k)

/-- The `extract_bytes_transferred` entry loop, in source order: the
`details['output']` bracket access first (`KeyError` if absent), then
`details.get('state_name')` with a skip-and-continue on `None`, then the
nested counter accesses (each a `KeyError` if absent), per-step assignment
and running-total accumulation. -/
def bytesLoop : List LogEntry → Row → Except String Row
  | [], usage => .ok usage
  | e :: rest, usage => do
    let action_logs ←
      match e.details.output with
      | none => Except.error "KeyError: output"
      | some m => pure m
    match e.details.state_name with
    | none => bytesLoop rest usage
    | some state_name => do
      let entry ←
        match dictLookup action_logs state_name with
        | none => Except.error ("KeyError: " ++ state_name)
        | some v => pure v
      let dts ←
        match entry.details with
        | none => Except.error "KeyError: details"
        | some d => pure d
      let bt ←
        match dts.bytes_transferred with
        | none => Except.error "KeyError: bytes_transferred"
        | some n => pure n
      let ft ←
        match dts.files_transferred with
        | none => Except.error "KeyError: files_transferred"
        | some n => pure n
      let fs ←
        match dts.files_skipped with
        | none => Except.error "KeyError: files_skipped"
        | some n => pure n
      let usage := dictSet usage (state_name ++ "_bytes_transferred") (Val.num bt)
      let usage := dictSet usage (state_name ++ "_files_transferred") (Val.num ft)
      let usage := dictSet usage (state_name ++ "_files_skipped") (Val.num fs)
      let usage ← dictAddNum usage "total_bytes_transferred" bt
      let usage ← dictAddNum usage "total_files_transferred" ft
      let usage ← dictAddNum usage "total_files_skipped" fs
      bytesLoop rest usage

/-- `FlowInfo.extract_bytes_transferred`: the zeroed totals dict is returned
as-is when the state-name filter is empty; otherwise the filtered
`ActionCompleted` entries are folded through `bytesLoop`. -/
def extract_bytes_transferred (flow_logs : Option RunLog)
    (filter_state_names : List String) (filter_codes : List String) :
    Except String Row :=
  let transfer_usage : Row :=
    [("total_bytes_transferred", Val.num 0),
     ("total_files_transferred", Val.num 0),
     ("total_files_skipped", Val.num 0)]
  if filter_state_names.isEmpty then .ok transfer_usage
  else do
    let flogs ← filter_log_entries flow_logs filter_state_names filter_codes
    bytesLoop flogs transfer_usage

/-- State of a snapshot file on disk, at the granularity the source's
control flow distinguishes: absent path, empty byte string, bytes
`json.loads` rejects, or a parsed document of the snapshot's shape. -/
inductive FileState (α : Type) : Type
  | missing
  | emptyFile
  | malformed
  | parsed (v : α)
deriving DecidableEq, Repr

/-- What `FlowsCache._load_data` hands back to its callers: the Python `[]`
of the missing-path branch, the `None` of the empty-read branch, or the
parsed document.  Both sentinels are falsy. -/
inductive LoadResult (α : Type) : Type
  | pyEmptyList
  | pyNone
  | pyVal (v : α)
deriving DecidableEq, Repr

/-- `FlowsCache._load_data`: missing path yields `[]`, empty content yields
`None`, otherwise the content goes through `json.loads`, which raises
`JSONDecodeError` on malformed bytes. -/
def load_data {α : Type} (f : FileState α) : Except String (LoadResult α) :=
  match f with
  | .missing => .ok .pyEmptyList
  | .emptyFile => .ok .pyNone
  | .malformed => .error "json.decoder.JSONDecodeError"
  | .parsed v => .ok (.pyVal v)

/-- Flow-list snapshot document `{'flows': [...]}`. -/
structure FlowsDoc where
  flows : List Flow
deriving DecidableEq, Repr

/-- Run-list snapshot document `{'runs': [...]}`. -/
structure RunsDoc where
  runs : List Run
deriving DecidableEq, Repr

/-- Run-log snapshot document `{'logs': {run_id: log}}`. -/
structure LogsDoc where
  logs : List (String × RunLog)
deriving DecidableEq, Repr

/-- `FlowsCache.flows`: `data['flows']` when the loaded value is truthy (a
parsed snapshot document is a one-key dict, hence truthy), else `[]`. -/
def cacheFlows (file : FileState FlowsDoc) : Except String (List Flow) := do
  let d ← load_data file
  match d with
  | .pyVal v => pure v.flows
  | _ => pure []

/-- `FlowsCache.runs`: as `cacheFlows`, over the run-list snapshot. -/
def cacheRuns (file : FileState RunsDoc) : Except String (List Run) := do
  let d ← load_data file
  match d with
  | .pyVal v => pure v.runs
  | _ => pure []

/-- `FlowsCache.get_run_logs`: load the run-log snapshot, defaulting falsy
results to `{'logs': {}}`; return the log for `run_id` when present, else
the absent-log sentinel `None`. -/
def get_run_logs (file : FileState LogsDoc) (run_id : String) :
    Except String (Option RunLog) := do
  let d ← load_data file
  let run_logs : LogsDoc := match d with | .pyVal v => v | _ => ⟨[]⟩
  pure (dictLookup run_logs.logs run_id)

/-- `FlowsCache.get_last_cached_run`: `{}` (here `none`) on an empty list,
otherwise the first element of the stable descending sort by
`completion_time` — the earliest-listed run among those with the maximal
completion time. -/
def get_last_cached_run (runs : List Run) : Option Run :=
  match runs with
  | [] => none
  | r :: rest =>
    some (rest.foldl
      (fun best x => if best.completion_time < x.completion_time then x else best) r)

/-- `FlowsCache.get_last_run`: the remote listing (limit 1, completion time
descending) indexed at `[0]` — an `IndexError` when the service reports no
runs.  The remote response is passed in as the list of runs it carries. -/
def get_last_run (remoteRuns : List Run) : Except String Run :=
  match remoteRuns with
  | [] => .error "IndexError: list index out of range"
  | r :: _ => .ok r

/-- The `cache_up_to_date` field of `FlowsCache.summary`, with the raising
behaviour on the way to it: the remote `[0]` index, then
`fromisoformat(lrt)` (whose value only feeds the `last_run` display field),
then the string comparison `lrt == last_cached_run.get('completion_time')`.
Local runs with their `completion_time` present are assumed, as the data
model guarantees for completed runs. -/
def summary_cache_up_to_date (localRuns : List Run) (remoteRuns : List Run) :
    Except String Bool := do
  let last_run ← get_last_run remoteRuns
  let last_cached_run := get_last_cached_run localRuns
  let lrt := last_run.completion_time
  match fromisoformat lrt with
  | none => Except.error "ValueError: Invalid isoformat string"
  | some _ =>
    pure (decide (some lrt = last_cached_run.map (fun r => r.completion_time)))

/-- How an `update_run_logs` call ends: a normal return or a propagated
exception. -/
inductive PyOutcome : Type
  | normalReturn
  | raised (msg : String)
deriving DecidableEq, Repr

/-- Observable result of one `update_run_logs` call: the run-log snapshot
file afterwards, the number of remote log fetches performed, and how the
call ended. -/
structure BackfillResult where
  finalFile : FileState LogsDoc
  fetchCount : Nat
  outcome : PyOutcome
deriving DecidableEq, Repr

/-- The fetch queue seeded by `_update_run_logs_loop`: the `run_id` of every
listed run not yet present in the loaded log map, in listing order. -/
def missingIds (runs : List Run) (logs : List (String × RunLog)) : List String :=
  (runs.filter (fun r => !dictHas logs r.run_id)).map (fun r => r.run_id)

/-- The workers' effect: each queued id is fetched from the remote client
and written into the in-memory log map (`run_logs['logs'][run_id] = ...`). -/
def fetchInto (remote : String → RunLog) (logs : List (String × RunLog))
    (ids : List String) : List (String × RunLog) :=
  ids.foldl (fun acc id => dictSet acc id (remote id)) logs

/-- The log map `update_run_logs` starts from: the loaded snapshot, with the
falsy sentinels replaced by `{'logs': {}}` (`... or {"logs": {}}`). -/
def loadedLogs (file : FileState LogsDoc) : LogsDoc :=
  match file with
  | .parsed v => v
  | _ => ⟨[]⟩

/-- `FlowsCache.update_run_logs` (with `_update_run_logs_loop` inlined,
sequentialized: the queue drains deterministically and the worker pool size
never changes which logs end up in the map).  `callbackProvided` is whether
a progress callback was passed (the default is not); `interruptAfter = some k`
models a `KeyboardInterrupt` arriving after `k` fetches while the queue is
still non-empty.  Control flow from the source: a load failure propagates
before the `try`; a `KeyboardInterrupt` is caught and only logged; the
`finally` always persists the accumulated map; after the queue drains the
unconditional `callback(100, 100)` raises `TypeError` when no callback was
provided; any such error is not caught but the `finally` has already saved. -/
def update_run_logs (remote : String → RunLog) (runs : List Run)
    (file : FileState LogsDoc) (callbackProvided : Bool)
    (interruptAfter : Option Nat) : BackfillResult :=
  match load_data file with
  | .error e => ⟨file, 0, .raised e⟩
  | .ok _ =>
    let run_logs := loadedLogs file
    let missing := missingIds runs run_logs.logs
    match interruptAfter with
    | some k =>
      if k < missing.length then
        ⟨.parsed ⟨fetchInto remote run_logs.logs (missing.take k)⟩, k, .normalReturn⟩
      else
        let acc := fetchInto remote run_logs.logs missing
        ⟨.parsed ⟨acc⟩, missing.length,
          if callbackProvided then .normalReturn else .raised "TypeError: NoneType object is not callable"⟩
    | none =>
      let acc := fetchInto remote run_logs.logs missing
      ⟨.parsed ⟨acc⟩, missing.length,
        if callbackProvided then .normalReturn else .raised "TypeError: NoneType object is not callable"⟩

/-- Per-run loop of `FlowInfo._extract_times`, accumulating one row per
terminal-success run: skip non-`SUCCEEDED` runs; look up the flow's step
types (may raise `ValueError`); seed the row with `start`/`end`; fetch the
run's log from the cache; extract step timestamps (raises `TypeError` on the
absent-log sentinel); merge in transfer counters (transfer-URL states,
optionally intersected with the caller's `transfer_states`) and compute
times (compute-URL states, optionally intersected with `compute_states`). -/
def extractTimesAux (flows : List Flow) (logsFile : FileState LogsDoc)
    (compute_states transfer_states : List String) :
    List Run → List Row → Except String (List Row)
  | [], acc => .ok acc
  | run :: rest, acc =>
    if run.status ≠ "SUCCEEDED" then
      extractTimesAux flows logsFile compute_states transfer_states rest acc
    else do
      let _ ← get_step_types flows run.flow_id
      let flow_res : Row :=
        [("start", Val.str run.start_time), ("end", Val.str run.completion_time)]
      let flow_logs ← get_run_logs logsFile run.run_id
      let stepRes ← extract_step_times flow_logs
      let flow_res := dictUpdate flow_res stepRes.1
      let filtered_transfer ← filter_ap_states flows run.flow_id transfer_ap_urls
      let filtered_transfer :=
        if !transfer_states.isEmpty then
          filtered_transfer.filter (fun n => n ∈ transfer_states)
        else filtered_transfer
      let bytes ← extract_bytes_transferred flow_logs filtered_transfer ["ActionCompleted"]
      let flow_res := dictUpdate flow_res bytes
      let filtered_compute ← filter_ap_states flows run.flow_id compute_ap_urls
      let filtered_compute :=
        if !compute_states.isEmpty then
          filtered_compute.filter (fun n => n ∈ compute_states)
        else filtered_compute
      let compute_stats ← extract_compute_time flow_logs filtered_compute
      let flow_res := dictUpdate flow_res compute_stats
      extractTimesAux flows logsFile compute_states transfer_states rest (acc ++ [flow_res])

/-- Sort key of the final `sort_values(by=['start'])`: the `start` column,
an ISO string on every produced row. -/
def startKeyOf (r : Row) : String :=
  match dictLookup r "start" with
  | some (Val.str s) => s
  | _ => ""

/-- Lexicographic `≤` on strings by code point, as Python compares the
`start` column's ISO strings. -/
def lexLeChars : List Char → List Char → Bool
  | [], _ => true
  | _ :: _, [] => false
  | a :: as, b :: bs => if a = b then lexLeChars as bs else decide (a < b)

/-- Stable insertion of a row into a list already sorted by `start`: placed
after every row whose key is `≤` its own. -/
def insertByStart (r : Row) : List Row → List Row
  | [] => [r]
  | x :: xs =>
    if lexLeChars (startKeyOf x).data (startKeyOf r).data then x :: insertByStart r xs
    else r :: x :: xs

/-- Stable sort of the collected rows by the `start` column
(`sort_values(by=['start'])`). -/
def sortRowsByStart (rows : List Row) : List Row :=
  rows.foldl (fun acc r => insertByStart r acc) []

/-- `FlowInfo._extract_times`: the per-run loop followed by, when any rows
were produced, the sort of the collected table by `start` and the
contiguous re-index (the re-index is the identity on a list model). -/
def extract_times (flows : List Flow) (logsFile : FileState LogsDoc)
    (compute_states transfer_states : List String) (runs : List Run) :
    Except String (List Row) := do
  let rows ← extractTimesAux flows logsFile compute_states transfer_states runs []
  if rows.length > 0 then pure (sortRowsByStart rows) else pure rows

/-! Concrete fixtures: one flow with a single `Action` step `A` implemented
by the compute action provider, one terminal-success run of it, and run
logs exercising the behaviours the claims name. -/

/-- A flow whose single state `A` is an `Action` step at the compute
provider URL. -/
def flowA : Flow := ⟨"flow-1", [("A", ⟨"Action", "https://compute.actions.globus.org"⟩)]⟩

/-- A terminal-success run of `flowA`. -/
def runSucceeded : Run :=
  ⟨"run-1", "flow-1", "SUCCEEDED", "2024-01-01T00:00:00", "2024-01-01T00:20:00"⟩

/-- A second terminal-success run of `flowA`. -/
def runSucceeded2 : Run :=
  ⟨"run-2", "flow-1", "SUCCEEDED", "2024-01-02T00:00:00", "2024-01-02T00:20:00"⟩

/-- A run log where the only observed step `A` has both a start and an end
timestamp. -/
def logPaired : RunLog := ⟨[
  ⟨"ActionStarted", "2024-01-01T00:00:00", ⟨some "A", none⟩⟩,
  ⟨"ActionCompleted", "2024-01-01T00:10:00", ⟨some "A", none⟩⟩]⟩

/-- A run-log snapshot holding `logPaired` for `run-1`. -/
def storeWithLog : FileState LogsDoc := .parsed ⟨[("run-1", logPaired)]⟩

/-- The metrics row the pipeline produces for `runSucceeded`: raw
`A_start`/`A_end` timestamp strings, the zeroed transfer totals, and the
compute times — no step-time field of any kind. -/
def rowProduced : Row :=
  [("start", Val.str "2024-01-01T00:00:00"),
   ("end", Val.str "2024-01-01T00:20:00"),
   ("A_start", Val.str "2024-01-01T00:00:00"),
   ("A_end", Val.str "2024-01-01T00:10:00"),
   ("total_bytes_transferred", Val.num 0),
   ("total_files_transferred", Val.num 0),
   ("total_files_skipped", Val.num 0),
   ("A_compute_time", Val.num 600),
   ("total_compute_time", Val.num 600)]

/-- A run log in which step `A` starts twice (a re-started step). -/
def logDoubleStart : RunLog := ⟨[
  ⟨"ActionStarted", "t0", ⟨some "A", none⟩⟩,
  ⟨"ActionStarted", "t1", ⟨some "A", none⟩⟩]⟩

/-- A run log whose first entry is an `ActionCompleted` with no
`state_name` in its details (its `output` payload is present), followed by
a well-formed transfer completion for step `T`. -/
def logMissingStateName : RunLog := ⟨[
  ⟨"ActionCompleted", "t0", ⟨none, some [("T", ⟨some ⟨some 1, some 1, some 0⟩⟩)]⟩⟩,
  ⟨"ActionCompleted", "t1", ⟨some "T", some [("T", ⟨some ⟨some 500, some 2, some 0⟩⟩)]⟩⟩]⟩

/-- A remote client stub serving the same log for every run id. -/
def remoteStub : String → RunLog := fun _ => logPaired

/-- A locally cached run completed 2024-01-01T00:00:00. -/
def localRunJan1 : Run :=
  ⟨"run-a", "flow-1", "SUCCEEDED", "2024-01-01T00:00:00", "2024-01-01T00:00:00"⟩

/-- A remote most-recent run completed 2024-01-02T00:00:00. -/
def remoteRunJan2 : Run :=
  ⟨"run-b", "flow-1", "SUCCEEDED", "2024-01-02T00:00:00", "2024-01-02T00:00:00"⟩

/-- The `state_name` of every entry whose code contains `"ActionStarted"`,
in delivery order — what the scan's `steps.append` collects on success. -/
def startedNames (entries : List LogEntry) : List (Option String) :=
  (entries.filter (fun e => strContains e.code "ActionStarted")).map
    (fun e => e.details.state_name)

/-! Helper lemmas on the dict model, the fetch loop and the substring
test. -/

theorem dictLookup_dictSet {κ α : Type} [DecidableEq κ] (d : List (κ × α)) (k k' : κ) (v : α) :
    dictLookup (dictSet d k v) k' = if k' = k then some v else dictLookup d k' := by
  induction d with
  | nil =>
    simp only [dictSet, dictLookup]
    by_cases h : k' = k
    · simp [h]
    · simp [h, Ne.symm h]
  | cons p rest ih =>
    simp only [dictSet]
    by_cases h : p.1 = k
    · simp only [if_pos h, dictLookup]
      by_cases h2 : k' = k
      · simp [h2]
      · have hkk : ¬(k = k') := fun e => h2 e.symm
        have hp : ¬(p.1 = k') := h ▸ hkk
        simp [h2, hkk, hp]
    · simp only [if_neg h, dictLookup]
      by_cases hp : p.1 = k'
      · have : ¬(k' = k) := fun e => h (hp.trans e)
        simp [hp, this]
      · simp [hp, ih]

theorem dictHas_eq_isSome {κ α : Type} [DecidableEq κ] (d : List (κ × α)) (k : κ) :
    dictHas d k = (dictLookup d k).isSome := by
  induction d with
  | nil => rfl
  | cons p rest ih =>
    by_cases h : p.1 = k <;> simp [dictHas, dictLookup, h, ih]

theorem fetchInto_nil (remote : String → RunLog) (d : List (String × RunLog)) :
    fetchInto remote d [] = d := rfl

theorem fetchInto_cons (remote : String → RunLog) (d : List (String × RunLog))
    (i : String) (ids : List String) :
    fetchInto remote d (i :: ids) = fetchInto remote (dictSet d i (remote i)) ids := rfl

theorem dictLookup_fetchInto_not_mem (remote : String → RunLog)
    (d : List (String × RunLog)) (ids : List String) (id : String) (h : id ∉ ids) :
    dictLookup (fetchInto remote d ids) id = dictLookup d id := by
  induction ids generalizing d with
  | nil => rfl
  | cons i rest ih =>
    have h1 : id ≠ i := fun e => h (e ▸ List.mem_cons_self i rest)
    have h2 : id ∉ rest := fun m => h (List.mem_cons_of_mem i m)
    rw [fetchInto_cons, ih _ h2, dictLookup_dictSet]
    simp [h1]

theorem dictLookup_fetchInto_mem (remote : String → RunLog)
    (d : List (String × RunLog)) (ids : List String) (id : String) (h : id ∈ ids) :
    dictLookup (fetchInto remote d ids) id = some (remote id) := by
  induction ids generalizing d with
  | nil => cases h
  | cons i rest ih =>
    by_cases hm : id ∈ rest
    · rw [fetchInto_cons]; exact ih _ hm
    · have he : id = i := by
        rcases List.mem_cons.mp h with h | h
        · exact h
        · exact absurd h hm
      subst he
      rw [fetchInto_cons, dictLookup_fetchInto_not_mem _ _ _ _ hm, dictLookup_dictSet]
      simp

theorem mem_missingIds_not_has (runs : List Run) (logs : List (String × RunLog))
    (id : String) (h : id ∈ missingIds runs logs) : dictHas logs id = false := by
  unfold missingIds at h
  rcases List.mem_map.mp h with ⟨run, hrun, hid⟩
  rcases List.mem_filter.mp hrun with ⟨_, hhas⟩
  subst hid
  simpa using hhas

theorem missingIds_fetchInto (remote : String → RunLog) (runs : List Run)
    (logs : List (String × RunLog)) :
    missingIds runs (fetchInto remote logs (missingIds runs logs)) = [] := by
  have key : ∀ run ∈ runs,
      dictHas (fetchInto remote logs (missingIds runs logs)) run.run_id = true := by
    intro run hrun
    rw [dictHas_eq_isSome]
    by_cases h : dictHas logs run.run_id = true
    · have hnm : run.run_id ∉ missingIds runs logs := fun m => by
        rw [mem_missingIds_not_has runs logs _ m] at h; exact Bool.noConfusion h
      rw [dictLookup_fetchInto_not_mem _ _ _ _ hnm, ← dictHas_eq_isSome, h]
    · have hmem : run.run_id ∈ missingIds runs logs := by
        unfold missingIds
        exact List.mem_map.mpr ⟨run, List.mem_filter.mpr ⟨hrun, by simpa using h⟩, rfl⟩
      rw [dictLookup_fetchInto_mem _ _ _ _ hmem]
      rfl
  unfold missingIds
  refine List.map_eq_nil_iff.mpr (List.filter_eq_nil_iff.mpr ?_)
  intro run hrun
  have hk := key run hrun
  unfold missingIds at hk
  simp [hk]

theorem leadsWith_append (a b h : List Char) (hl : leadsWith (a ++ b) h = true) :
    leadsWith a h = true := by
  induction a generalizing h with
  | nil => rfl
  | cons x xs ih =>
    cases h with
    | nil => simp [leadsWith] at hl
    | cons y ys =>
      simp only [List.cons_append, leadsWith, Bool.and_eq_true] at hl ⊢
      exact ⟨hl.1, ih ys hl.2⟩

theorem hasSub_append (h a b : List Char) (hs : hasSub h (a ++ b) = true) :
    hasSub h a = true := by
  induction h with
  | nil =>
    simp only [hasSub] at hs ⊢
    cases a
    · rfl
    · simp [List.isEmpty] at hs
  | cons c rest ih =>
    simp only [hasSub, Bool.or_eq_true] at hs ⊢
    rcases hs with h1 | h2
    · exact Or.inl (leadsWith_append a b _ h1)
    · exact Or.inr (ih h2)

theorem strContains_action_of_started (s : String)
    (h : strContains s "ActionStarted" = true) : strContains s "Action" = true := by
  have hd : "ActionStarted".data = "Action".data ++ "Started".data := rfl
  unfold strContains at h ⊢
  rw [hd] at h
  exact hasSub_append _ _ _ h

/-- On any successful scan, the returned step list is the threaded-in
accumulator followed by the `state_name` of every `"ActionStarted"` entry,
duplicates included. -/
theorem extractStepTimesAux_steps :
    ∀ (entries : List LogEntry) (res : Row) (steps : List String) (r : Row) (s : List String),
      extractStepTimesAux entries res steps = .ok (r, s) →
      s.map Option.some = steps.map Option.some ++ startedNames entries := by
  intro entries
  induction entries with
  | nil =>
    intro res steps r s h
    simp only [extractStepTimesAux] at h
    cases h
    simp [startedNames]
  | cons e rest ih =>
    intro res steps r s h
    cases hA : strContains e.code "Action" with
    | false =>
      have hS : strContains e.code "ActionStarted" = false := by
        cases hv : strContains e.code "ActionStarted"
        · rfl
        · rw [strContains_action_of_started _ hv] at hA; exact hA
      simp only [extractStepTimesAux, hA, Bool.not_false, if_true] at h
      rw [ih _ _ _ _ h]
      simp [startedNames, hS]
    | true =>
      simp only [extractStepTimesAux, hA, Bool.not_true, Bool.false_eq_true, if_false] at h
      cases hS : strContains e.code "ActionStarted" with
      | true =>
        cases hn : e.details.state_name with
        | none => rw [hS, hn] at h; simp at h
        | some name =>
          rw [hS, hn] at h
          simp only [if_true] at h
          cases hC : strContains e.code "ActionCompleted" with
          | true =>
            rw [hC] at h
            simp only [if_true] at h
            rw [ih _ _ _ _ h]
            simp [startedNames, hS, hn, List.filter_cons]
          | false =>
            rw [hC] at h
            simp only [Bool.false_eq_true, if_false] at h
            rw [ih _ _ _ _ h]
            simp [startedNames, hS, hn, List.filter_cons]
      | false =>
        rw [hS] at h
        simp only [Bool.false_eq_true, if_false] at h
        cases hC : strContains e.code "ActionCompleted" with
        | true =>
          cases hn : e.details.state_name with
          | none => rw [hC, hn] at h; simp at h
          | some name =>
            rw [hC, hn] at h
            simp only [if_true] at h
            rw [ih _ _ _ _ h]
            simp [startedNames, hS, List.filter_cons]
        | false =>
          rw [hC] at h
          simp only [Bool.false_eq_true, if_false] at h
          rw [ih _ _ _ _ h]
          simp [startedNames, hS, List.filter_cons]

/-! The claims. -/

/-- C1: for a terminal-success run whose persisted log pairs every observed
step's start and end, the produced metrics row carries raw
`{step}_start`/`{step}_end` timestamp strings but no `{step}_step_time`
field and no `total_step_time` field at all — contradicting the claim (and
the source's own comment "this gives a _runtime field for each step" and
its downstream consumers, which read `_step_time`/`_runtime` columns). -/
theorem C1_row_lacks_step_time_fields :
    extract_times [flowA] storeWithLog [] [] [runSucceeded] = .ok [rowProduced] ∧
    dictLookup rowProduced "A_step_time" = none ∧
    dictLookup rowProduced "total_step_time" = none ∧
    rowProduced.all (fun p => !strContains p.1 "_step_time") = true :=
  ⟨rfl, rfl, rfl, rfl⟩

/-- C2 (counterexample): a terminal-success run whose log is absent from
the run-log store makes the aggregation raise (`None['entries']` is a
`TypeError`), aborting before the second listed run is reached; no row, no
counter, no continuation — the claim's "does not raise, and continues" is
false. -/
theorem C2_counterexample_aggregation_raises :
    extract_times [flowA] (.parsed ⟨[]⟩) [] [] [runSucceeded, runSucceeded2] =
      .error "TypeError: NoneType object is not subscriptable" :=
  rfl

/-- C2 (amended): for every terminal-success run whose flow definition
resolves but whose log is absent from the run-log store, the aggregation
raises `TypeError` (subscripting the absent-log sentinel); no missing-log
counter exists, no row is produced, and the remaining runs are not
processed. -/
theorem C2_amended_missing_log_raises (flows : List Flow) (file : FileState LogsDoc)
    (compute_states transfer_states : List String) (run : Run) (rest : List Run)
    (st : List (String × String))
    (h1 : run.status = "SUCCEEDED")
    (h2 : get_step_types flows run.flow_id = .ok st)
    (h3 : get_run_logs file run.run_id = .ok none) :
    extract_times flows file compute_states transfer_states (run :: rest) =
      .error "TypeError: NoneType object is not subscriptable" := by
  unfold extract_times extractTimesAux
  simp [h1, h2, h3, extract_step_times, Except.bind, Bind.bind]

/-- C2 (witness): the amended statement applied to the concrete fixture. -/
theorem C2_amended_witness :
    runSucceeded.status = "SUCCEEDED" ∧
    get_step_types [flowA] runSucceeded.flow_id =
      .ok [("A", "https://compute.actions.globus.org")] ∧
    get_run_logs (FileState.parsed ⟨[]⟩) runSucceeded.run_id = .ok none ∧
    extract_times [flowA] (.parsed ⟨[]⟩) [] [] [runSucceeded] =
      .error "TypeError: NoneType object is not subscriptable" :=
  ⟨rfl, rfl, rfl,
    C2_amended_missing_log_raises [flowA] (.parsed ⟨[]⟩) [] [] runSucceeded [] _ rfl rfl rfl⟩

/-- C3 (counterexample): a keyboard interrupt after one of two pending
fetches persists the one accumulated log but the call returns normally —
the interrupt is caught and logged, never re-raised, so "re-signaled to
the caller rather than swallowed" is false. -/
theorem C3_counterexample_interrupt_swallowed :
    update_run_logs remoteStub [runSucceeded, runSucceeded2] (.parsed ⟨[]⟩) true (some 1) =
      ⟨.parsed ⟨[("run-1", logPaired)]⟩, 1, .normalReturn⟩ ∧
    PyOutcome.normalReturn ≠ PyOutcome.raised "KeyboardInterrupt" :=
  ⟨rfl, by decide⟩

/-- C3 (amended): for a keyboard interrupt arriving mid-backfill, every
run log accumulated up to that point (the initial map plus each fetched
id) is persisted to the snapshot, but the interrupt is swallowed: the call
returns normally instead of re-signaling the cancellation. -/
theorem C3_amended_flush_then_swallow (remote : String → RunLog) (runs : List Run)
    (file : FileState LogsDoc) (cb : Bool) (k : Nat)
    (hf : file ≠ FileState.malformed)
    (hk : k < (missingIds runs (loadedLogs file).logs).length) :
    (update_run_logs remote runs file cb (some k)).outcome = .normalReturn ∧
    (update_run_logs remote runs file cb (some k)).finalFile =
      .parsed ⟨fetchInto remote (loadedLogs file).logs
        ((missingIds runs (loadedLogs file).logs).take k)⟩ ∧
    ∀ id ∈ (missingIds runs (loadedLogs file).logs).take k,
      dictLookup (fetchInto remote (loadedLogs file).logs
        ((missingIds runs (loadedLogs file).logs).take k)) id = some (remote id) := by
  refine ⟨?_, ?_, fun id hid => dictLookup_fetchInto_mem _ _ _ _ hid⟩
  · cases file with
    | malformed => exact absurd rfl hf
    | missing =>
      simp only [loadedLogs] at hk
      simp [update_run_logs, load_data, loadedLogs, hk]
    | emptyFile =>
      simp only [loadedLogs] at hk
      simp [update_run_logs, load_data, loadedLogs, hk]
    | parsed v =>
      simp only [loadedLogs] at hk
      simp [update_run_logs, load_data, loadedLogs, hk]
  · cases file with
    | malformed => exact absurd rfl hf
    | missing =>
      simp only [loadedLogs] at hk
      simp [update_run_logs, load_data, loadedLogs, hk]
    | emptyFile =>
      simp only [loadedLogs] at hk
      simp [update_run_logs, load_data, loadedLogs, hk]
    | parsed v =>
      simp only [loadedLogs] at hk
      simp [update_run_logs, load_data, loadedLogs, hk]

/-- C3 (witness): the amended statement applied to the concrete fixture. -/
theorem C3_amended_witness :
    (FileState.parsed (⟨[]⟩ : LogsDoc) ≠ FileState.malformed) ∧
    1 < (missingIds [runSucceeded, runSucceeded2]
          (loadedLogs (.parsed ⟨[]⟩)).logs).length ∧
    (update_run_logs remoteStub [runSucceeded, runSucceeded2]
        (.parsed ⟨[]⟩) true (some 1)).outcome = .normalReturn :=
  ⟨by decide, by decide,
    (C3_amended_flush_then_swallow remoteStub [runSucceeded, runSucceeded2]
      (.parsed ⟨[]⟩) true 1 (by decide) (by decide)).1⟩

/-- C4 (counterexample): with no runs at the remote service and an empty
local cache, the claim requires the staleness check to report up to date;
the code instead raises `IndexError` indexing `runs.data['runs'][0]`. -/
theorem C4_counterexample_empty_remote_raises :
    summary_cache_up_to_date [] [] = .error "IndexError: list index out of range" :=
  rfl

/-- C4 (amended): when the remote service reports at least one run (with a
parseable completion time), `cache_up_to_date` is exactly the string
equality of that run's completion time with the most-recent locally cached
completion time — so an empty local cache yields not up to date; when the
remote reports no runs, the check raises `IndexError` regardless of the
local cache. -/
theorem C4_amended_equality_is_signal (localRuns : List Run) (r : Run) (rest : List Run)
    (h : (fromisoformat r.completion_time).isSome = true) :
    summary_cache_up_to_date localRuns (r :: rest) =
      .ok (decide (some r.completion_time =
        (get_last_cached_run localRuns).map (fun x => x.completion_time))) ∧
    (localRuns = [] →
      summary_cache_up_to_date localRuns (r :: rest) = .ok false) := by
  obtain ⟨v, hv⟩ := Option.isSome_iff_exists.mp h
  constructor
  · unfold summary_cache_up_to_date get_last_run
    simp [hv, Except.bind, Bind.bind, pure, Except.pure]
  · intro he
    subst he
    unfold summary_cache_up_to_date get_last_run get_last_cached_run
    simp [hv, Except.bind, Bind.bind, pure, Except.pure]

/-- C4 (witness): the spec's example — local most-recent completion
2024-01-01T00:00:00 versus remote 2024-01-02T00:00:00 — is not up to
date. -/
theorem C4_amended_witness :
    (fromisoformat remoteRunJan2.completion_time).isSome = true ∧
    summary_cache_up_to_date [localRunJan1] [remoteRunJan2] = .ok false :=
  ⟨by decide,
    (C4_amended_equality_is_signal [localRunJan1] remoteRunJan2 [] (by decide)).1⟩

/-- C5 (counterexample): on a log whose step `A` starts twice, the step
list comes back as `["A", "A"]`, not the `["A"]` that "appended only at
its first occurrence" requires. -/
theorem C5_counterexample_duplicate_append :
    extract_step_times (some logDoubleStart) =
      .ok ([("A_start", Val.str "t1")], ["A", "A"]) ∧
    (["A", "A"] : List String) ≠ ["A"] :=
  ⟨rfl, by decide⟩

/-- C5 (amended): the scan processes entries in delivery order, ignores
codes not containing "Action", records `{name}_start`/`{name}_end` keyed
by step name, and on success returns as its step list the `state_name` of
every entry whose code contains "ActionStarted", in encounter order — a
name is appended at every start occurrence, not only the first. -/
theorem C5_amended_all_starts_appended (lg : RunLog) (r : Row) (s : List String)
    (h : extract_step_times (some lg) = .ok (r, s)) :
    s.map Option.some = startedNames lg.entries := by
  have := extractStepTimesAux_steps lg.entries [] [] r s h
  simpa using this

/-- C5 (witness): the amended statement applied to the concrete fixture. -/
theorem C5_amended_witness :
    extract_step_times (some logPaired) =
      .ok ([("A_start", Val.str "2024-01-01T00:00:00"),
            ("A_end", Val.str "2024-01-01T00:10:00")], ["A"]) ∧
    List.map Option.some ["A"] = startedNames logPaired.entries :=
  ⟨rfl, C5_amended_all_starts_appended logPaired _ _ rfl⟩

/-- C6: with the empty compute-category filter — which the spec defines as
"no restriction" — `extract_compute_time` always raises: the early return
reads the undefined name `compute_time` (the local is `compute_times`), a
`NameError`, for every run log including the absent-log sentinel. -/
theorem C6_empty_filter_raises_name_error (flow_logs : Option RunLog) :
    extract_compute_time flow_logs [] =
      .error "NameError: name compute_time is not defined" :=
  rfl

/-- C7: an entry lacking a step name in its details makes transfer-metric
extraction with a non-empty filter raise `KeyError` inside
`filter_log_entries` (the bracketed `e['details']['state_name']` access),
so the well-formed second entry is never aggregated — the skip-and-warn
branch in `extract_bytes_transferred` is unreachable dead code. -/
theorem C7_missing_state_name_raises :
    extract_bytes_transferred (some logMissingStateName) ["T"] ["ActionCompleted"] =
      .error "KeyError: state_name" :=
  rfl

/-- C8 (counterexample): an unparseable flow-list snapshot does not read
as an empty collection — `json.loads` raises and the error propagates. -/
theorem C8_counterexample_malformed_raises :
    cacheFlows .malformed = .error "json.decoder.JSONDecodeError" :=
  rfl

/-- C8 (amended): a missing or empty snapshot file reads as the empty
collection for all three readers (empty flow list, empty run list,
log-not-found), while an unparseable file raises `JSONDecodeError` in
each of them. -/
theorem C8_amended_missing_empty_ok (run_id : String) :
    cacheFlows .missing = .ok [] ∧
    cacheFlows .emptyFile = .ok [] ∧
    cacheRuns .missing = .ok [] ∧
    cacheRuns .emptyFile = .ok [] ∧
    get_run_logs .missing run_id = .ok none ∧
    get_run_logs .emptyFile run_id = .ok none ∧
    cacheRuns .malformed = .error "json.decoder.JSONDecodeError" ∧
    get_run_logs .malformed run_id = .error "json.decoder.JSONDecodeError" :=
  ⟨rfl, rfl, rfl, rfl, rfl, rfl, rfl, rfl⟩

/-- C9: run-log backfill is idempotent — a second invocation against the
same listed runs and remote performs zero fetches (every listed run id is
already stored, so the missing set is empty) and leaves the persisted
snapshot identical. -/
theorem C9_backfill_idempotent (remote : String → RunLog) (runs : List Run)
    (file : FileState LogsDoc) :
    (update_run_logs remote runs
        (update_run_logs remote runs file true none).finalFile true none).fetchCount = 0 ∧
    (update_run_logs remote runs
        (update_run_logs remote runs file true none).finalFile true none).finalFile =
      (update_run_logs remote runs file true none).finalFile := by
  cases file with
  | malformed => simp [update_run_logs, load_data]
  | missing =>
    simp [update_run_logs, load_data, loadedLogs, missingIds_fetchInto, fetchInto_nil]
  | emptyFile =>
    simp [update_run_logs, load_data, loadedLogs, missingIds_fetchInto, fetchInto_nil]
  | parsed v =>
    simp [update_run_logs, load_data, loadedLogs, missingIds_fetchInto, fetchInto_nil]

/-- C10: with no callback supplied (the default), a backfill that runs to
queue drain always ends in the unconditional `callback(100, 100)` raising
`TypeError` — even when nothing needed fetching — while the `finally`
block has already persisted the fully accumulated log map. -/
theorem C10_default_callback_type_error (remote : String → RunLog) (runs : List Run)
    (file : FileState LogsDoc) (hf : file ≠ FileState.malformed) :
    update_run_logs remote runs file false none =
      ⟨.parsed ⟨fetchInto remote (loadedLogs file).logs
          (missingIds runs (loadedLogs file).logs)⟩,
       (missingIds runs (loadedLogs file).logs).length,
       .raised "TypeError: NoneType object is not callable"⟩ := by
  cases file with
  | malformed => exact absurd rfl hf
  | missing => simp [update_run_logs, load_data, loadedLogs]
  | emptyFile => simp [update_run_logs, load_data, loadedLogs]
  | parsed v => simp [update_run_logs, load_data, loadedLogs]

/-- C10 (witness): the statement applied with an empty run list and an
empty parsed snapshot — zero fetches, `TypeError`, snapshot persisted. -/
theorem C10_witness :
    (FileState.parsed (⟨[]⟩ : LogsDoc) ≠ FileState.malformed) ∧
    update_run_logs remoteStub [] (.parsed ⟨[]⟩) false none =
      ⟨.parsed ⟨[]⟩, 0, .raised "TypeError: NoneType object is not callable"⟩ :=
  ⟨by decide, C10_default_callback_type_error remoteStub [] (.parsed ⟨[]⟩) (by decide)⟩

end FlowInfoModel
